import Mathlib

/-!
Shallow embedding of the Moesif Gloo ext-proc plugin (Rust) event-assembly
and batching logic, together with theorems checking the natural-language
specification against it.

Sources embedded:
- src/moesif-extproc/src/event.rs   (RequestInfo, ResponseInfo, header
  normalization, client-IP derivation, body encoding)
- src/moesif-extproc/src/grpc_service.rs  (per-stream body-chunk handling)
- src/moesif-extproc/src/root_context.rs  (Batcher, event-processor loop,
  batch serialization and dispatch)

External library functions (Rust std / serde_json / base64) are modelled as
follows: `str::to_lowercase` and byte-wise helpers are implemented directly
for the ASCII range relevant to HTTP headers; `serde_json::from_slice` is an
abstract parameter `parse_json`; `String::from_utf8_lossy` is an abstract
parameter `utf8_lossy`; `IpAddr::from_str` is an abstract parameter
`is_valid_ip` (instantiated in witnesses with a concrete model of the IPv4
literal grammar); base64 STANDARD encoding is implemented concretely.
Bytes are modelled as `List Nat`.
-/

/-- Model of `char` lowercasing as performed by Rust `str::to_lowercase`
on the ASCII range (HTTP header names are ASCII). -/
def lower_char (c : Char) : Char :=
  if h : 65 ≤ c.toNat ∧ c.toNat ≤ 90 then
    Char.ofNatAux (c.toNat + 32) (Or.inl (by omega))
  else c

/-- Model of Rust `str::to_lowercase` (ASCII range). -/
def lower_string (s : String) : String :=
  String.mk (s.data.map lower_char)

/-- Model of Rust `k.starts_with(":")`: the first character is a colon. -/
def starts_with_colon (s : String) : Bool :=
  match s.data with
  | [] => false
  | c :: _ => c = ':'

/-- Model of Rust `str::is_empty`. -/
def str_is_empty (s : String) : Bool :=
  s.data.isEmpty

/-- Model of Rust `str::split(sep)` for a single-character separator:
splits into the (possibly empty) pieces between occurrences of `sep`. -/
def split_on_char (s : String) (sep : Char) : List String :=
  let r := s.data.foldl
    (fun (acc : List String × List Char) c =>
      if c = sep then (acc.1 ++ [String.mk acc.2.reverse], [])
      else (acc.1, c :: acc.2))
    ([], [])
  r.1 ++ [String.mk r.2.reverse]

/-- ASCII whitespace (the subset of Rust `char::is_whitespace` relevant to
comma-separated header values). -/
def is_ws (c : Char) : Bool :=
  c = ' ' ∨ c = '\t' ∨ c = '\n' ∨ c = '\r'

/-- Model of Rust `str::trim`: strip whitespace from both ends. -/
def trim_string (s : String) : String :=
  String.mk (((s.data.dropWhile is_ws).reverse.dropWhile is_ws).reverse)

/-- Model of `std::collections::HashMap<String, String>` as a partial
function from keys to values. -/
def HMap : Type := String → Option String

def HMap.empty : HMap := fun _ => none

def HMap.insert (m : HMap) (k v : String) : HMap :=
  fun q => if q = k then some v else m q

/-- Model of `HashMap::retain`: keep only entries satisfying the predicate. -/
def HMap.retain (m : HMap) (p : String → String → Bool) : HMap :=
  fun q =>
    match m q with
    | some v => if p q v then some v else none
    | none => none

/-- Model of `serde_json::Value`. -/
inductive Json where
  | null : Json
  | bool (b : Bool) : Json
  | num (n : Int) : Json
  | str (s : String) : Json
  | arr (elems : List Json) : Json
  | obj (fields : List (String × Json)) : Json

/-- The base64 STANDARD alphabet (RFC 4648). -/
def base64_alphabet : List Char :=
  "ABCDEFGHIJKLMNOPQRSTUVWXYZabcdefghijklmnopqrstuvwxyz0123456789+/".data

def base64_digit (n : Nat) : Char := base64_alphabet.getD n 'A'

/-- Base64 STANDARD encoding of a byte sequence, 3 bytes per 4 output
characters, with `=` padding (models the `base64` crate's
`general_purpose::STANDARD.encode`). -/
def base64_chars : List Nat → List Char
  | b1 :: b2 :: b3 :: rest =>
      base64_digit (b1 / 4) :: base64_digit (b1 % 4 * 16 + b2 / 16) ::
      base64_digit (b2 % 16 * 4 + b3 / 64) :: base64_digit (b3 % 64) ::
      base64_chars rest
  | [b1, b2] =>
      [base64_digit (b1 / 4), base64_digit (b1 % 4 * 16 + b2 / 16),
       base64_digit (b2 % 16 * 4), '=']
  | [b1] =>
      [base64_digit (b1 / 4), base64_digit (b1 % 4 * 16), '=', '=']
  | [] => []

def base64_encode (bs : List Nat) : String := String.mk (base64_chars bs)

/-- Model of Rust `str::parse::<usize>`: optional leading `+`, then one or
more decimal digits, failing on overflow past `usize::MAX` (64-bit). -/
def parse_usize (s : String) : Option Nat :=
  let digits := match s.data with
    | '+' :: rest => rest
    | l => l
  if digits = [] then none
  else if digits.all Char.isDigit then
    let n := digits.foldl (fun a c => a * 10 + (c.toNat - 48)) 0
    if n < 2 ^ 64 then some n else none
  else none

/-- One entry of the envoy `HeaderMap` protobuf: a key with either a string
value or raw bytes. -/
structure HeaderValue where
  key : String
  value : String
  raw_value : List Nat

/-- The loop body of `header_list_to_map`: lowercase the key, pick the
string value or else the lossily decoded raw bytes, and either insert the
value or append it to an existing one joined by `", "`. -/
def hltm_step (utf8_lossy : List Nat → String) (map : HMap)
    (header : HeaderValue) : HMap :=
  let key := lower_string header.key
  let value := if str_is_empty header.value then utf8_lossy header.raw_value
               else header.value
  match map key with
  | some existing_value => map.insert key (existing_value ++ ", " ++ value)
  | none => map.insert key value

/-- `header_list_to_map` from event.rs: fold the header list into a map,
lowercasing keys, preferring the string value over the lossily decoded raw
bytes, and joining values of repeated keys with `", "`. `utf8_lossy` models
`String::from_utf8_lossy`. -/
def header_list_to_map (utf8_lossy : List Nat → String)
    (header_map : Option (List HeaderValue)) : HMap :=
  match header_map with
  | none => HMap.empty
  | some headers =>
      headers.foldl (hltm_step utf8_lossy) HMap.empty

/-- The fixed ordered list of client-IP header names from `get_client_ip`. -/
def possible_headers : List String :=
  ["x-client-ip", "x-forwarded-for", "cf-connecting-ip", "fastly-client-ip",
   "true-client-ip", "x-real-ip", "x-cluster-client-ip", "x-forwarded",
   "forwarded-for", "forwarded", "x-appengine-user-ip", "cf-pseudo-ipv4"]

/-- `get_client_ip` from event.rs: scan `possible_headers` in order; for the
first present header, split its value on commas and return the first trimmed
token accepted by `is_valid_ip` (the model of `IpAddr::from_str(..).is_ok()`);
a present header with no valid token does not stop the scan. -/
def get_client_ip (is_valid_ip : String → Bool) (headers : HMap) :
    Option String :=
  possible_headers.findSome? (fun header =>
    match headers header with
    | some value =>
        (split_on_char value ',').findSome? (fun ip =>
          if is_valid_ip (trim_string ip) then some (trim_string ip) else none)
    | none => none)

/-- `encode_body` from event.rs: parse the bytes as JSON; on success return
the parsed value with no transfer-encoding marker, on failure return the
base64 encoding as a JSON string with marker `"base64"`. `parse_json` models
`serde_json::from_slice`. -/
def encode_body (parse_json : List Nat → Option Json) (body_bytes : List Nat) :
    Json × Option String :=
  match parse_json body_bytes with
  | some json_value => (json_value, none)
  | none => (Json.str (base64_encode body_bytes), some "base64")

/-- `RequestInfo` from event.rs. -/
structure RequestInfo where
  time : String
  verb : String
  uri : String
  headers : HMap
  transfer_encoding : Option String
  api_version : Option String
  ip_address : Option String
  body : Json

/-- `RequestInfo::new`: creation timestamp plus `Default` fields (the wall
clock is external, so the timestamp is a parameter). -/
def RequestInfo.new (now : String) : RequestInfo :=
  { time := now, verb := "", uri := "", headers := HMap.empty,
    transfer_encoding := none, api_version := none, ip_address := none,
    body := Json.null }

/-- `RequestInfo::set_headers`: store the map, extract verb and URI from the
`:method` and `:path` pseudo-headers, drop pseudo-headers, then derive the
API version and client IP from the retained map. -/
def RequestInfo.set_headers (is_valid_ip : String → Bool) (r : RequestInfo)
    (headers : HMap) : RequestInfo :=
  let verb := match headers ":method" with
    | some method => method
    | none => r.verb
  let uri := match headers ":path" with
    | some path => path
    | none => r.uri
  let retained := headers.retain (fun k _ => !starts_with_colon k)
  { r with
    headers := retained, verb := verb, uri := uri,
    api_version := retained "x-api-version",
    ip_address := get_client_ip is_valid_ip retained }

/-- `RequestInfo::set_body`: a no-op on empty bytes, otherwise store the
encoded body and transfer-encoding marker. -/
def RequestInfo.set_body (parse_json : List Nat → Option Json)
    (r : RequestInfo) (body_bytes : List Nat) : RequestInfo :=
  if body_bytes.isEmpty then r
  else
    let enc := encode_body parse_json body_bytes
    { r with body := enc.1, transfer_encoding := enc.2 }

/-- `ResponseInfo` from event.rs. -/
structure ResponseInfo where
  time : String
  status : Nat
  headers : HMap
  ip_address : Option String
  body : Json
  transfer_encoding : Option String

/-- `ResponseInfo::new`. -/
def ResponseInfo.new (now : String) : ResponseInfo :=
  { time := now, status := 0, headers := HMap.empty, ip_address := none,
    body := Json.null, transfer_encoding := none }

/-- `ResponseInfo::set_headers`: store the map, set the status from the
`:status` pseudo-header when it parses as an unsigned integer, then drop
pseudo-headers. -/
def ResponseInfo.set_headers (r : ResponseInfo) (headers : HMap) :
    ResponseInfo :=
  let status := match headers ":status" with
    | some status_str =>
        match parse_usize status_str with
        | some status_code => status_code
        | none => r.status
    | none => r.status
  { r with
    status := status,
    headers := headers.retain (fun k _ => !starts_with_colon k) }

/-- `ResponseInfo::set_body`. -/
def ResponseInfo.set_body (parse_json : List Nat → Option Json)
    (r : ResponseInfo) (body_bytes : List Nat) : ResponseInfo :=
  if body_bytes.isEmpty then r
  else
    let enc := encode_body parse_json body_bytes
    { r with body := enc.1, transfer_encoding := enc.2 }

/-- One `HttpBody` protocol message: a byte chunk and the end-of-stream
flag. -/
structure HttpBody where
  body : List Nat
  end_of_stream : Bool

/-- `process_request_body` from grpc_service.rs, acting on the pair of the
in-flight `RequestInfo` and the per-stream accumulated request body bytes:
append the chunk, and on end-of-stream finalize the body via `set_body`. -/
def process_request_body (parse_json : List Nat → Option Json)
    (chunk : HttpBody) (st : RequestInfo × List Nat) :
    RequestInfo × List Nat :=
  let bytes := st.2 ++ chunk.body
  if chunk.end_of_stream then
    (st.1.set_body parse_json bytes, bytes)
  else
    (st.1, bytes)

/-- Model of Rust std IPv4 literal parsing (`Ipv4Addr::from_str`) for one
dotted-quad octet: decimal digits, no leading zero unless the octet is the
single digit 0, value at most 255. Used only to instantiate the abstract
`is_valid_ip` parameter in witnesses. -/
def parse_ipv4_octet (s : String) : Option Nat :=
  match s.data with
  | [] => none
  | ds =>
      if ds.all Char.isDigit then
        if ds.length > 1 ∧ ds.head? = some '0' then none
        else
          let n := ds.foldl (fun a c => a * 10 + (c.toNat - 48)) 0
          if n ≤ 255 then some n else none
      else none

/-- Model of `IpAddr::from_str(..).is_ok()` restricted to IPv4 dotted-quad
literals (no token in any witness below is an IPv6 literal). -/
def is_valid_ipv4 (s : String) : Bool :=
  match split_on_char s '.' with
  | [a, b, c, d] =>
      (parse_ipv4_octet a).isSome && (parse_ipv4_octet b).isSome &&
      (parse_ipv4_octet c).isSome && (parse_ipv4_octet d).isSome
  | _ => false

/-- `Batcher` from root_context.rs. `tokio::time::Instant` is modelled as a
millisecond timestamp (`Nat`); `Bytes` as `List Nat`. -/
structure Batcher where
  buffer : List (List Nat)
  first_event_time : Option Nat
  max_size : Nat
  max_wait : Nat

/-- `Batcher::new`. -/
def Batcher.new (max_size : Nat) (max_wait : Nat) : Batcher :=
  { buffer := [], first_event_time := none,
    max_size := max_size, max_wait := max_wait }

/-- Milliseconds of `Duration::from_secs(u64::MAX)`, the effectively
infinite timeout used when no first-event time is recorded. -/
def u64_max_secs_as_millis : Nat := (2 ^ 64 - 1) * 1000

/-- `Batcher::calculate_timeout` at current time `now` (milliseconds):
remaining wait measured from the first event of the batch, zero once the
configured wait has elapsed, effectively infinite when the batch has no
first-event time. -/
def Batcher.calculate_timeout (b : Batcher) (now : Nat) : Nat :=
  match b.first_event_time with
  | some time =>
      let elapsed := now - time
      if elapsed ≥ b.max_wait then 0 else b.max_wait - elapsed
  | none => u64_max_secs_as_millis

/-- `Batcher::handle_new_event` at current time `now`: record the
first-event time if absent, then push the event onto the buffer. -/
def Batcher.handle_new_event (b : Batcher) (now : Nat) (event : List Nat) :
    Batcher :=
  let b1 := if b.first_event_time.isNone
    then { b with first_event_time := some now } else b
  { b1 with buffer := b1.buffer ++ [event] }

/-- `Batcher::should_flush`. -/
def Batcher.should_flush (b : Batcher) : Bool :=
  b.buffer.length ≥ b.max_size

/-- `Batcher::has_events`. -/
def Batcher.has_events (b : Batcher) : Bool :=
  b.first_event_time.isSome

/-- `Batcher::reset`. -/
def Batcher.reset (b : Batcher) : Batcher :=
  { b with first_event_time := none, buffer := [] }

/-- `write_events_json` from root_context.rs: a `[`, then each event's
pre-serialized bytes with a `,` pushed before every event except the first,
then a `]` (byte values 91, 44, 93). The source iterates with an index and
tests index > 0; this is modelled with `List.enum`. -/
def write_events_json (events : List (List Nat)) : List Nat :=
  (events.enum.foldl
    (fun acc ie => (if ie.1 > 0 then acc ++ [44] else acc) ++ ie.2)
    [91]) ++ [93]

/-- `send_batch` from root_context.rs, modelled by the payload it hands to
the HTTP dispatch: `none` when the buffer is empty (the function returns
without performing a delivery), otherwise the `write_events_json` payload.
The HTTP response, and any dispatch error, do not flow back into state. -/
def send_batch (buffer : List (List Nat)) : Option (List Nat) :=
  if buffer.isEmpty then none
  else some (write_events_json buffer)

/-- `flush_buffer` from root_context.rs: hand the buffer to `send_batch`,
then reset the batcher. `dispatch_ok` models the network's verdict on the
delivery; the source only logs a failed dispatch, so the verdict influences
neither the resulting state nor the emitted payload. -/
def flush_buffer (dispatch_ok : List (List Nat) → Bool) (b : Batcher) :
    Batcher × Option (List Nat) :=
  (b.reset, send_batch b.buffer)

/-- One wake-up of the `tokio::select!` loop in `run_event_processor`:
either a new event is received at time `now`, or the wait timer fires at
time `now` (the timer branch is armed only when `has_events`). -/
inductive LoopEvent where
  | recv (event : List Nat) (now : Nat) : LoopEvent
  | timer (now : Nat) : LoopEvent

/-- One iteration of the `run_event_processor` loop body: on receive,
append the event and flush if `should_flush`; on timer fire, flush. A timer
event reaching a batcher without events is a no-op, reflecting the
`if batcher.has_events()` guard that leaves the branch disarmed. Returns
the new batcher state and the payload dispatched by the iteration, if
any. -/
def processor_step (dispatch_ok : List (List Nat) → Bool) (b : Batcher)
    (ev : LoopEvent) : Batcher × Option (List Nat) :=
  match ev with
  | LoopEvent.recv event now =>
      let b1 := b.handle_new_event now event
      if b1.should_flush then flush_buffer dispatch_ok b1
      else (b1, none)
  | LoopEvent.timer _ =>
      if b.has_events then flush_buffer dispatch_ok b
      else (b, none)

/-- Run the processor loop over a sequence of wake-ups, keeping only the
batcher state. -/
def processor_run (dispatch_ok : List (List Nat) → Bool) (b : Batcher)
    (evs : List LoopEvent) : Batcher :=
  evs.foldl (fun st ev => (processor_step dispatch_ok st ev).1) b

/-! ### Derived and specification-side definitions used by the theorems -/

/-- The value a header entry contributes to the map. -/
def header_value_string (utf8_lossy : List Nat → String) (h : HeaderValue) :
    String :=
  if str_is_empty h.value then utf8_lossy h.raw_value else h.value

/-- The values, in encounter order, of the entries whose lowercased key is
`k`. -/
def key_occurrences (utf8_lossy : List Nat → String)
    (headers : List HeaderValue) (k : String) : List String :=
  (headers.filter (fun h => lower_string h.key = k)).map
    (header_value_string utf8_lossy)

/-- Join a list of values onto an optional existing value, `", "`-separated,
the way repeated `hltm_step` applications do. -/
def join_from (acc : Option String) : List String → Option String
  | [] => acc
  | v :: vs =>
      match acc with
      | none => join_from (some v) vs
      | some e => join_from (some (e ++ ", " ++ v)) vs

/-- What the specification says a repeated header maps to: nothing when the
name never occurs, otherwise the occurrence values joined in encounter order
by `", "`. -/
def joined_occurrences : List String → Option String
  | [] => none
  | v :: vs => some (vs.foldl (fun a b => a ++ ", " ++ b) v)

/-- The per-stream request-body handling of grpc_service.rs restricted to
the body messages of one stream: fold the chunks through
`process_request_body`, starting from a fresh `RequestInfo` and an empty
accumulator (as `process` does). -/
def request_body_run (parse_json : List Nat → Option Json)
    (chunks : List HttpBody) (t : String) : RequestInfo × List Nat :=
  chunks.foldl (fun st ch => process_request_body parse_json ch st)
    (RequestInfo.new t, [])

/-- Concatenation of all chunk payloads of a stream. -/
def chunks_concat (chunks : List HttpBody) : List Nat :=
  (chunks.map HttpBody.body).flatten

/-- Specification-side restatement of the client-IP scan: for each header
name in the fixed order, split the present value on commas, trim every
token, and return the first token accepted by the IP-validity predicate. -/
def spec_first_valid_token (is_valid_ip : String → Bool) (value : String) :
    Option String :=
  ((split_on_char value ',').map trim_string).find? is_valid_ip

/-- Specification-side restatement of `get_client_ip`. -/
def spec_client_ip (is_valid_ip : String → Bool) (headers : HMap) :
    Option String :=
  possible_headers.findSome? (fun name =>
    match headers name with
    | some value => spec_first_valid_token is_valid_ip value
    | none => none)

/-- Specification-side payload body: the records' bytes joined by single
comma bytes. -/
def comma_joined : List (List Nat) → List Nat
  | [] => []
  | e :: rest => e ++ (rest.map (fun x => 44 :: x)).flatten

/-- The Batcher invariant of C10: a first-event time is recorded exactly
when the buffer is non-empty. -/
def batcher_inv (b : Batcher) : Prop :=
  b.first_event_time.isSome = true ↔ b.buffer ≠ []


/-! ### Helper lemmas: lowercasing -/

theorem toNat_ofNatAux (n : Nat) (h : n.isValidChar) :
    (Char.ofNatAux n h).toNat = n := rfl

theorem lower_char_idem (c : Char) : lower_char (lower_char c) = lower_char c := by
  unfold lower_char
  by_cases h : 65 ≤ c.toNat ∧ c.toNat ≤ 90
  · rw [dif_pos h, dif_neg]
    rw [toNat_ofNatAux]
    omega
  · rw [dif_neg h, dif_neg h]

theorem lower_map_idem (l : List Char) :
    (l.map lower_char).map lower_char = l.map lower_char := by
  induction l with
  | nil => rfl
  | cons c t ih => simp [ih, lower_char_idem]

theorem lower_string_idem (s : String) :
    lower_string (lower_string s) = lower_string s :=
  congrArg String.mk (lower_map_idem s.data)

/-! ### Helper lemmas: HMap -/

theorem HMap.insert_self (m : HMap) (k v : String) :
    (m.insert k v) k = some v := by
  simp [HMap.insert]

theorem HMap.insert_other (m : HMap) (k v q : String) (h : q ≠ k) :
    (m.insert k v) q = m q := by
  simp [HMap.insert, h]

/-! ### Helper lemmas: the header_list_to_map fold -/

theorem join_from_some_eq (vs : List String) :
    ∀ e : String, join_from (some e) vs =
      some (vs.foldl (fun a b => a ++ ", " ++ b) e) := by
  induction vs with
  | nil => intro e; rfl
  | cons v t ih => intro e; simp only [join_from, List.foldl_cons, ih]

theorem join_from_none_eq (l : List String) :
    join_from none l = joined_occurrences l := by
  cases l with
  | nil => rfl
  | cons v vs => simp only [join_from, joined_occurrences, join_from_some_eq]

theorem hltm_step_apply (u : List Nat → String) (m : HMap) (h : HeaderValue)
    (k : String) :
    (hltm_step u m h) k =
      if lower_string h.key = k then
        (match m k with
         | some e => some (e ++ ", " ++ header_value_string u h)
         | none => some (header_value_string u h))
      else m k := by
  by_cases hk : lower_string h.key = k
  · subst hk
    rw [if_pos rfl]
    show (hltm_step u m h) (lower_string h.key) = _
    unfold hltm_step header_value_string
    cases hmk : m (lower_string h.key) with
    | some e => simp [hmk, HMap.insert_self]
    | none => simp [hmk, HMap.insert_self]
  · rw [if_neg hk]
    have hk2 : k ≠ lower_string h.key := fun e => hk e.symm
    unfold hltm_step
    cases hmk : m (lower_string h.key) with
    | some e => simp [hmk, HMap.insert_other _ _ _ _ hk2]
    | none => simp [hmk, HMap.insert_other _ _ _ _ hk2]

theorem hltm_fold_eq (u : List Nat → String) (headers : List HeaderValue) :
    ∀ (m : HMap) (k : String),
      (headers.foldl (hltm_step u) m) k =
        join_from (m k) (key_occurrences u headers k) := by
  induction headers with
  | nil => intro m k; rfl
  | cons h t ih =>
    intro m k
    rw [List.foldl_cons, ih, hltm_step_apply]
    by_cases hk : lower_string h.key = k
    · have hocc : key_occurrences u (h :: t) k =
          header_value_string u h :: key_occurrences u t k := by
        simp [key_occurrences, List.filter_cons, hk]
      rw [if_pos hk, hocc]
      cases hmk : m k with
      | some e => simp [join_from]
      | none => simp [join_from]
    · have hocc : key_occurrences u (h :: t) k = key_occurrences u t k := by
        simp [key_occurrences, List.filter_cons, hk]
      rw [if_neg hk, hocc]

/-- Every key present in the normalized map is fixed by lowercasing. -/
theorem hltm_key_lower (u : List Nat → String) (hm : Option (List HeaderValue))
    (k : String) (hs : ((header_list_to_map u hm) k).isSome = true) :
    lower_string k = k := by
  cases hm with
  | none => simp [header_list_to_map, HMap.empty] at hs
  | some headers =>
    rw [header_list_to_map, hltm_fold_eq] at hs
    cases hocc : key_occurrences u headers k with
    | nil =>
      rw [hocc] at hs
      simp [join_from, HMap.empty] at hs
    | cons v vs =>
      have hfil : headers.filter (fun h => lower_string h.key = k) ≠ [] := by
        intro hnil
        rw [key_occurrences, hnil] at hocc
        simp at hocc
      obtain ⟨h, hmem⟩ := List.exists_mem_of_ne_nil _ hfil
      have hk : lower_string h.key = k :=
        of_decide_eq_true (List.mem_filter.mp hmem).2
      rw [← hk, lower_string_idem]

/-- Keys surviving `retain` with the no-pseudo-header predicate were present
and do not start with a colon. -/
theorem retain_colon_isSome (m : HMap) (k : String)
    (hs : ((m.retain (fun k _ => !starts_with_colon k)) k).isSome = true) :
    (m k).isSome = true ∧ starts_with_colon k = false := by
  unfold HMap.retain at hs
  cases hmk : m k with
  | none => rw [hmk] at hs; simp at hs
  | some v =>
    rw [hmk] at hs
    by_cases hc : starts_with_colon k
    · simp [hc] at hs
    · exact ⟨rfl, by simp [hc]⟩

theorem request_set_headers_headers (ivp : String → Bool) (r : RequestInfo)
    (m : HMap) :
    (r.set_headers ivp m).headers =
      m.retain (fun k _ => !starts_with_colon k) := rfl

theorem response_set_headers_headers (r : ResponseInfo) (m : HMap) :
    (r.set_headers m).headers =
      m.retain (fun k _ => !starts_with_colon k) := rfl

/-- C2: after normalization through `header_list_to_map` and
`RequestInfo::set_headers` or `ResponseInfo::set_headers`, every key of the
stored header map is fixed by lowercasing and no stored key begins with a
colon. -/
theorem claim_c2_normalized_keys (u : List Nat → String)
    (ivp : String → Bool) (hm : Option (List HeaderValue))
    (r : RequestInfo) (resp : ResponseInfo) (k : String) :
    ((((r.set_headers ivp (header_list_to_map u hm)).headers k).isSome = true →
        lower_string k = k ∧ starts_with_colon k = false) ∧
     (((resp.set_headers (header_list_to_map u hm)).headers k).isSome = true →
        lower_string k = k ∧ starts_with_colon k = false)) := by
  constructor
  · intro hs
    rw [request_set_headers_headers] at hs
    obtain ⟨h1, h2⟩ := retain_colon_isSome _ _ hs
    exact ⟨hltm_key_lower u hm k h1, h2⟩
  · intro hs
    rw [response_set_headers_headers] at hs
    obtain ⟨h1, h2⟩ := retain_colon_isSome _ _ hs
    exact ⟨hltm_key_lower u hm k h1, h2⟩

/-- Witness for C2 at the concrete header list `[("X-Foo", "1")]` and key
`"x-foo"`. -/
theorem claim_c2_witness :
    lower_string "x-foo" = "x-foo" ∧ starts_with_colon "x-foo" = false :=
  (claim_c2_normalized_keys (fun _ => "") is_valid_ipv4
      (some [⟨"X-Foo", "1", []⟩]) (RequestInfo.new "") (ResponseInfo.new "")
      "x-foo").1 (by decide)

/-- C9: `header_list_to_map` maps every key to the values of its occurrences
(after lowercasing the names) concatenated in encounter order and joined by
`", "`; a key with no occurrence is absent. -/
theorem claim_c9_duplicate_headers_joined (u : List Nat → String)
    (headers : List HeaderValue) (k : String) :
    header_list_to_map u (some headers) k =
      joined_occurrences (key_occurrences u headers k) := by
  rw [header_list_to_map, hltm_fold_eq]
  exact join_from_none_eq _

/-- C8: `ResponseInfo::set_headers` sets the status to the parsed value of
the `:status` pseudo-header, and leaves the status untouched when the
pseudo-header is absent or does not parse as an unsigned integer. -/
theorem claim_c8_status_extraction (r : ResponseInfo) (hm : HMap) :
    (∀ s n, hm ":status" = some s → parse_usize s = some n →
       (r.set_headers hm).status = n) ∧
    (∀ s, hm ":status" = some s → parse_usize s = none →
       (r.set_headers hm).status = r.status) ∧
    (hm ":status" = none → (r.set_headers hm).status = r.status) := by
  refine ⟨?_, ?_, ?_⟩
  · intro s n h1 h2
    simp [ResponseInfo.set_headers, h1, h2]
  · intro s h1 h2
    simp [ResponseInfo.set_headers, h1, h2]
  · intro h1
    simp [ResponseInfo.set_headers, h1]

/-- Witness for C8: a `":status" = "200"` header map yields status 200, and
an unparsable `":status" = "abc"` leaves the fresh record's status at 0. -/
theorem claim_c8_witness :
    ((ResponseInfo.new "").set_headers
        (HMap.empty.insert ":status" "200")).status = 200 ∧
    ((ResponseInfo.new "").set_headers
        (HMap.empty.insert ":status" "abc")).status = 0 :=
  ⟨(claim_c8_status_extraction (ResponseInfo.new "")
      (HMap.empty.insert ":status" "200")).1 "200" 200 (by decide) (by decide),
   (claim_c8_status_extraction (ResponseInfo.new "")
      (HMap.empty.insert ":status" "abc")).2.1 "abc" (by decide) (by decide)⟩

/-- C7: `flush_buffer` hands exactly the current buffer to `send_batch` and
then resets the accumulator (empty buffer, no first-event time); the
dispatch verdict influences neither, so a failed delivery is never
re-queued. -/
theorem claim_c7_flush_clears_state (d d2 : List (List Nat) → Bool)
    (b : Batcher) :
    (flush_buffer d b).1 = b.reset ∧
    (flush_buffer d b).1.buffer = [] ∧
    (flush_buffer d b).1.first_event_time = none ∧
    (flush_buffer d b).2 = send_batch b.buffer ∧
    flush_buffer d b = flush_buffer d2 b :=
  ⟨rfl, rfl, rfl, rfl, rfl⟩

/-! ### Helper lemmas and definitions: request body chunks (C1) -/

theorem process_chunks_snd (parse_json : List Nat → Option Json)
    (cs : List HttpBody) :
    ∀ st : RequestInfo × List Nat,
      (cs.foldl (fun st ch => process_request_body parse_json ch st) st).2 =
        st.2 ++ (cs.map HttpBody.body).flatten := by
  induction cs with
  | nil => intro st; simp
  | cons c t ih =>
    intro st
    rw [List.foldl_cons, ih]
    cases hEos : c.end_of_stream <;>
      simp [process_request_body, hEos, List.append_assoc]

theorem process_chunks_all_empty (parse_json : List Nat → Option Json)
    (cs : List HttpBody) (h : ∀ ch ∈ cs, ch.body = ([] : List Nat))
    (r : RequestInfo) :
    cs.foldl (fun st ch => process_request_body parse_json ch st) (r, []) =
      (r, []) := by
  induction cs generalizing r with
  | nil => rfl
  | cons c t ih =>
    have hc : c.body = [] := h c (List.mem_cons_self c t)
    have ht : ∀ ch ∈ t, ch.body = ([] : List Nat) :=
      fun ch hm => h ch (List.mem_cons_of_mem c hm)
    rw [List.foldl_cons]
    have hstep : process_request_body parse_json c (r, []) = (r, []) := by
      cases hEos : c.end_of_stream <;>
        simp [process_request_body, hEos, hc, RequestInfo.set_body]
    rw [hstep]
    exact ih ht r

/-- C1: for a chunk sequence ending in an end-of-stream chunk, the
finalized request body is the parsed JSON of the concatenated bytes (marker
unset) when they parse, the base64 string of the bytes (marker `"base64"`)
when they do not, and the default value (marker unset) when the
concatenation is empty. -/
theorem claim_c1_request_body_finalization
    (parse_json : List Nat → Option Json) (cs : List HttpBody) (c : HttpBody)
    (t : String) (hc : c.end_of_stream = true) :
    (chunks_concat (cs ++ [c]) = [] →
       (request_body_run parse_json (cs ++ [c]) t).1.body = Json.null ∧
       (request_body_run parse_json (cs ++ [c]) t).1.transfer_encoding
         = none) ∧
    (∀ j, chunks_concat (cs ++ [c]) ≠ [] →
       parse_json (chunks_concat (cs ++ [c])) = some j →
       (request_body_run parse_json (cs ++ [c]) t).1.body = j ∧
       (request_body_run parse_json (cs ++ [c]) t).1.transfer_encoding
         = none) ∧
    (chunks_concat (cs ++ [c]) ≠ [] →
       parse_json (chunks_concat (cs ++ [c])) = none →
       (request_body_run parse_json (cs ++ [c]) t).1.body =
         Json.str (base64_encode (chunks_concat (cs ++ [c]))) ∧
       (request_body_run parse_json (cs ++ [c]) t).1.transfer_encoding =
         some "base64") := by
  have hrun : request_body_run parse_json (cs ++ [c]) t =
      process_request_body parse_json c (request_body_run parse_json cs t) := by
    unfold request_body_run
    rw [List.foldl_append]
    rfl
  have hsnd : (request_body_run parse_json cs t).2 = chunks_concat cs := by
    unfold request_body_run chunks_concat
    rw [process_chunks_snd]
    rfl
  have hconcat : chunks_concat (cs ++ [c]) = chunks_concat cs ++ c.body := by
    unfold chunks_concat
    simp
  have hfinal : (request_body_run parse_json (cs ++ [c]) t).1 =
      (request_body_run parse_json cs t).1.set_body parse_json
        (chunks_concat (cs ++ [c])) := by
    rw [hrun]
    simp only [process_request_body, hc, if_true]
    rw [hsnd, ← hconcat]
  refine ⟨?_, ?_, ?_⟩
  · intro hemp
    have hall : ∀ ch ∈ cs ++ [c], ch.body = ([] : List Nat) := by
      have := hemp
      unfold chunks_concat at this
      rw [List.flatten_eq_nil_iff] at this
      intro ch hm
      exact this ch.body (List.mem_map_of_mem HttpBody.body hm)
    have hz : request_body_run parse_json (cs ++ [c]) t =
        (RequestInfo.new t, []) := by
      unfold request_body_run
      exact process_chunks_all_empty parse_json (cs ++ [c]) hall _
    rw [hz]
    exact ⟨rfl, rfl⟩
  · intro j hne hparse
    rw [hfinal]
    have hie : (chunks_concat (cs ++ [c])).isEmpty = false := by
      cases hl : chunks_concat (cs ++ [c]) with
      | nil => exact absurd hl hne
      | cons a l => rfl
    simp [RequestInfo.set_body, hie, encode_body, hparse]
  · intro hne hparse
    rw [hfinal]
    have hie : (chunks_concat (cs ++ [c])).isEmpty = false := by
      cases hl : chunks_concat (cs ++ [c]) with
      | nil => exact absurd hl hne
      | cons a l => rfl
    simp [RequestInfo.set_body, hie, encode_body, hparse]

/-- Witness for C1: a single end-of-stream chunk carrying the two bytes
`hi`, with a parser that rejects them, finalizes the body to the base64
string `"aGk="` with the transfer-encoding marker set. -/
theorem claim_c1_witness :
    (request_body_run (fun _ => none) [HttpBody.mk [104, 105] true] "").1.body
      = Json.str "aGk=" ∧
    (request_body_run (fun _ => none)
        [HttpBody.mk [104, 105] true] "").1.transfer_encoding
      = some "base64" :=
  (claim_c1_request_body_finalization (fun _ => none) []
      (HttpBody.mk [104, 105] true) "" rfl).2.2 (by decide) rfl

/-! ### C3: client-IP derivation -/

theorem findSome_if_eq_find (p : String → Bool) (f : String → String)
    (l : List String) :
    l.findSome? (fun x => if p (f x) then some (f x) else none) =
      (l.map f).find? p := by
  induction l with
  | nil => rfl
  | cons a t ih =>
    by_cases h : p (f a)
    · simp [List.findSome?_cons, List.find?, h]
    · simp [List.findSome?_cons, List.find?, h, ih]

/-- C3: `get_client_ip` realizes the specified ordered scan (first header
name whose comma-split, trimmed value contains a token the IP predicate
accepts wins, with the first such token returned), and on
`x-forwarded-for: "bad, 203.0.113.5, 10.0.0.1"` with no higher-priority
header present it returns `"203.0.113.5"`, for any IP-validity predicate
rejecting `"bad"` and accepting `"203.0.113.5"`. -/
theorem claim_c3_client_ip_scan (is_valid_ip : String → Bool)
    (hbad : is_valid_ip "bad" = false)
    (hgood : is_valid_ip "203.0.113.5" = true) :
    (∀ headers : HMap, get_client_ip is_valid_ip headers =
        spec_client_ip is_valid_ip headers) ∧
    get_client_ip is_valid_ip
        (HMap.empty.insert "x-forwarded-for" "bad, 203.0.113.5, 10.0.0.1") =
      some "203.0.113.5" := by
  constructor
  · intro headers
    unfold get_client_ip spec_client_ip spec_first_valid_token
    congr 1
    funext name
    cases headers name with
    | some value =>
        exact findSome_if_eq_find is_valid_ip trim_string
          (split_on_char value ',')
    | none => rfl
  · have hsplit : split_on_char "bad, 203.0.113.5, 10.0.0.1" ',' =
        ["bad", " 203.0.113.5", " 10.0.0.1"] := rfl
    have ht1 : trim_string "bad" = "bad" := rfl
    have ht2 : trim_string " 203.0.113.5" = "203.0.113.5" := rfl
    simp [get_client_ip, possible_headers, HMap.insert, HMap.empty,
      List.findSome?_cons, hsplit, ht1, ht2, hbad, hgood]

/-- Witness for C3 with the IPv4-literal model as the IP predicate. -/
theorem claim_c3_witness :
    get_client_ip is_valid_ipv4
        (HMap.empty.insert "x-forwarded-for" "bad, 203.0.113.5, 10.0.0.1") =
      some "203.0.113.5" :=
  (claim_c3_client_ip_scan is_valid_ipv4 (by decide) (by decide)).2

/-! ### C4: batch payload serialization -/

theorem wej_fold_from_one (events : List (List Nat)) :
    ∀ (n : Nat) (acc : List Nat),
      (List.enumFrom (n + 1) events).foldl
        (fun acc ie => (if ie.1 > 0 then acc ++ [44] else acc) ++ ie.2) acc =
        acc ++ (events.map (fun x => 44 :: x)).flatten := by
  induction events with
  | nil => intro n acc; simp [List.enumFrom]
  | cons e rest ih =>
    intro n acc
    simp only [List.enumFrom, List.foldl_cons]
    rw [if_pos (Nat.succ_pos n), ih]
    simp [List.append_assoc]

theorem comma_tail_length (rest : List (List Nat)) :
    ((rest.map (fun x => 44 :: x)).flatten).length =
      (rest.map List.length).sum + rest.length := by
  induction rest with
  | nil => rfl
  | cons a t ih =>
    simp only [List.map_cons, List.flatten_cons, List.length_append,
      List.length_cons, List.sum_cons, ih]
    omega

/-- C4: the flush payload is exactly `[`, the records' bytes joined by
single commas, then `]`; its length is the sum of the member lengths plus
one comma per gap plus the two brackets; and an empty batch is never
dispatched. -/
theorem claim_c4_flush_payload_shape (events : List (List Nat))
    (h : events ≠ []) :
    write_events_json events = 91 :: (comma_joined events ++ [93]) ∧
    (write_events_json events).length =
      (events.map List.length).sum + (events.length - 1) + 2 ∧
    send_batch [] = none := by
  obtain ⟨e, rest, rfl⟩ : ∃ e rest, events = e :: rest := by
    cases events with
    | nil => exact absurd rfl h
    | cons e rest => exact ⟨e, rest, rfl⟩
  have hsh : write_events_json (e :: rest) =
      91 :: (comma_joined (e :: rest) ++ [93]) := by
    unfold write_events_json comma_joined
    simp only [List.enum_cons, List.foldl_cons, gt_iff_lt, Nat.lt_irrefl,
      if_false]
    rw [wej_fold_from_one rest 0 ([91] ++ e)]
    simp [List.append_assoc]
  refine ⟨hsh, ?_, rfl⟩
  rw [hsh]
  simp only [comma_joined, List.length_cons, List.length_append,
    comma_tail_length, List.map_cons, List.sum_cons, List.length_cons]
  simp
  omega

/-- Witness for C4 at the one-record batch `[[48]]`. -/
theorem claim_c4_witness :
    write_events_json [[48]] = 91 :: (comma_joined [[48]] ++ [93]) ∧
    (write_events_json [[48]]).length =
      ([[48]].map List.length).sum + ([[48]].length - 1) + 2 ∧
    send_batch [] = none :=
  claim_c4_flush_payload_shape [[48]] (by decide)

/-! ### Batcher invariants (C5, C6, C10) -/

theorem batcher_inv_new (ms mw : Nat) : batcher_inv (Batcher.new ms mw) := by
  simp [batcher_inv, Batcher.new]

theorem batcher_inv_reset (b : Batcher) : batcher_inv b.reset := by
  simp [batcher_inv, Batcher.reset]

theorem handle_buffer_eq (b : Batcher) (now : Nat) (e : List Nat) :
    (b.handle_new_event now e).buffer = b.buffer ++ [e] := by
  unfold Batcher.handle_new_event
  cases hf : b.first_event_time <;> simp [hf]

theorem handle_first_isSome (b : Batcher) (now : Nat) (e : List Nat) :
    (b.handle_new_event now e).first_event_time.isSome = true := by
  unfold Batcher.handle_new_event
  cases hf : b.first_event_time <;> simp [hf]

theorem handle_max_size (b : Batcher) (now : Nat) (e : List Nat) :
    (b.handle_new_event now e).max_size = b.max_size := by
  unfold Batcher.handle_new_event
  cases hf : b.first_event_time <;> simp [hf]

theorem handle_max_wait (b : Batcher) (now : Nat) (e : List Nat) :
    (b.handle_new_event now e).max_wait = b.max_wait := by
  unfold Batcher.handle_new_event
  cases hf : b.first_event_time <;> simp [hf]

theorem batcher_inv_handle (b : Batcher) (now : Nat) (e : List Nat) :
    batcher_inv (b.handle_new_event now e) := by
  unfold batcher_inv
  rw [handle_buffer_eq, handle_first_isSome]
  simp

theorem processor_step_inv (d : List (List Nat) → Bool) (b : Batcher)
    (ev : LoopEvent) (h : batcher_inv b) :
    batcher_inv (processor_step d b ev).1 := by
  cases ev with
  | recv e now =>
    unfold processor_step
    by_cases hsf : (b.handle_new_event now e).should_flush = true
    · simp only [hsf, if_true, flush_buffer]
      exact batcher_inv_reset _
    · simp only [Bool.not_eq_true] at hsf
      simp only [hsf, Bool.false_eq_true, if_false]
      exact batcher_inv_handle b now e
  | timer now =>
    unfold processor_step
    by_cases hhe : b.has_events = true
    · simp only [hhe, if_true, flush_buffer]
      exact batcher_inv_reset _
    · simp only [Bool.not_eq_true] at hhe
      simp only [hhe, Bool.false_eq_true, if_false]
      exact h

theorem processor_run_inv (d : List (List Nat) → Bool) (evs : List LoopEvent) :
    ∀ b : Batcher, batcher_inv b → batcher_inv (processor_run d b evs) := by
  induction evs with
  | nil => intro b h; exact h
  | cons ev t ih =>
    intro b h
    exact ih _ (processor_step_inv d b ev h)

theorem processor_step_max_size (d : List (List Nat) → Bool) (b : Batcher)
    (ev : LoopEvent) : (processor_step d b ev).1.max_size = b.max_size := by
  cases ev with
  | recv e now =>
    unfold processor_step
    by_cases hsf : (b.handle_new_event now e).should_flush = true
    · simp only [hsf, if_true, flush_buffer, Batcher.reset]
      exact handle_max_size b now e
    · simp only [Bool.not_eq_true] at hsf
      simp only [hsf, Bool.false_eq_true, if_false]
      exact handle_max_size b now e
  | timer now =>
    unfold processor_step
    by_cases hhe : b.has_events = true
    · simp [hhe, flush_buffer, Batcher.reset]
    · simp only [Bool.not_eq_true] at hhe
      simp [hhe]

theorem processor_step_max_wait (d : List (List Nat) → Bool) (b : Batcher)
    (ev : LoopEvent) : (processor_step d b ev).1.max_wait = b.max_wait := by
  cases ev with
  | recv e now =>
    unfold processor_step
    by_cases hsf : (b.handle_new_event now e).should_flush = true
    · simp only [hsf, if_true, flush_buffer, Batcher.reset]
      exact handle_max_wait b now e
    · simp only [Bool.not_eq_true] at hsf
      simp only [hsf, Bool.false_eq_true, if_false]
      exact handle_max_wait b now e
  | timer now =>
    unfold processor_step
    by_cases hhe : b.has_events = true
    · simp [hhe, flush_buffer, Batcher.reset]
    · simp only [Bool.not_eq_true] at hhe
      simp [hhe]

theorem processor_run_max_size (d : List (List Nat) → Bool)
    (evs : List LoopEvent) :
    ∀ b : Batcher, (processor_run d b evs).max_size = b.max_size := by
  induction evs with
  | nil => intro b; rfl
  | cons ev t ih =>
    intro b
    rw [show processor_run d b (ev :: t) =
        processor_run d (processor_step d b ev).1 t from rfl]
    rw [ih, processor_step_max_size]

theorem processor_run_max_wait (d : List (List Nat) → Bool)
    (evs : List LoopEvent) :
    ∀ b : Batcher, (processor_run d b evs).max_wait = b.max_wait := by
  induction evs with
  | nil => intro b; rfl
  | cons ev t ih =>
    intro b
    rw [show processor_run d b (ev :: t) =
        processor_run d (processor_step d b ev).1 t from rfl]
    rw [ih, processor_step_max_wait]

theorem processor_step_size (d : List (List Nat) → Bool) (b : Batcher)
    (ev : LoopEvent) (h : b.buffer.length ≤ b.max_size) :
    (processor_step d b ev).1.buffer.length ≤
      (processor_step d b ev).1.max_size := by
  cases ev with
  | recv e now =>
    unfold processor_step
    by_cases hsf : (b.handle_new_event now e).should_flush = true
    · simp [hsf, flush_buffer, Batcher.reset]
    · simp only [Bool.not_eq_true] at hsf
      simp only [hsf, Bool.false_eq_true, if_false]
      unfold Batcher.should_flush at hsf
      simp only [ge_iff_le, decide_eq_false_iff_not, not_le] at hsf
      omega
  | timer now =>
    unfold processor_step
    by_cases hhe : b.has_events = true
    · simp [hhe, flush_buffer, Batcher.reset]
    · simp only [Bool.not_eq_true] at hhe
      simp only [hhe, Bool.false_eq_true, if_false]
      exact h

theorem processor_run_size (d : List (List Nat) → Bool) (evs : List LoopEvent) :
    ∀ b : Batcher, b.buffer.length ≤ b.max_size →
      (processor_run d b evs).buffer.length ≤
        (processor_run d b evs).max_size := by
  induction evs with
  | nil => intro b h; exact h
  | cons ev t ih =>
    intro b h
    exact ih _ (processor_step_size d b ev h)

/-- C5: appending a record that brings the batch to the configured maximum
makes the loop iteration dispatch that very batch and leave an empty
buffer, and consequently the buffer never exceeds the configured maximum
at any iteration boundary of a run started from a fresh batcher. -/
theorem claim_c5_batch_size_bound (d : List (List Nat) → Bool) (ms mw : Nat) :
    (∀ evs : List LoopEvent,
       (processor_run d (Batcher.new ms mw) evs).buffer.length ≤ ms) ∧
    (∀ (b : Batcher) (now : Nat) (e : List Nat),
       (b.handle_new_event now e).should_flush = true →
       (processor_step d b (LoopEvent.recv e now)).2 =
           some (write_events_json (b.handle_new_event now e).buffer) ∧
       (processor_step d b (LoopEvent.recv e now)).1.buffer = []) := by
  constructor
  · intro evs
    have h := processor_run_size d evs (Batcher.new ms mw)
      (by simp [Batcher.new])
    rw [processor_run_max_size] at h
    exact h
  · intro b now e hsf
    have hne : (b.handle_new_event now e).buffer.isEmpty = false := by
      rw [handle_buffer_eq]; simp
    constructor
    · simp [processor_step, hsf, flush_buffer, send_batch, hne]
    · simp [processor_step, hsf, flush_buffer, Batcher.reset]

/-- Witness for C5: with maximum size 1, the first received record is
flushed by the same iteration. -/
theorem claim_c5_witness :
    (processor_step (fun _ => true) (Batcher.new 1 0)
        (LoopEvent.recv [] 0)).2 =
      some (write_events_json
        ((Batcher.new 1 0).handle_new_event 0 []).buffer) ∧
    (processor_step (fun _ => true) (Batcher.new 1 0)
        (LoopEvent.recv [] 0)).1.buffer = [] :=
  (claim_c5_batch_size_bound (fun _ => true) 1 0).2 (Batcher.new 1 0) 0 []
    (by decide)

/-- C6: with an empty batch the wait is effectively infinite and the timer
branch is a disabled no-op, so the loop blocks on arrival only; with a
non-empty batch the timeout is the configured maximum wait minus the time
elapsed since the batch's first record (zero once that has passed), and a
timer fire dispatches the batch regardless of its size. -/
theorem claim_c6_wait_condition (d : List (List Nat) → Bool) (ms mw : Nat)
    (evs : List LoopEvent) (now : Nat) :
    ((processor_run d (Batcher.new ms mw) evs).buffer = [] →
       (processor_run d (Batcher.new ms mw) evs).calculate_timeout now =
           u64_max_secs_as_millis ∧
       (processor_run d (Batcher.new ms mw) evs).has_events = false ∧
       processor_step d (processor_run d (Batcher.new ms mw) evs)
           (LoopEvent.timer now) =
         (processor_run d (Batcher.new ms mw) evs, none)) ∧
    ((processor_run d (Batcher.new ms mw) evs).buffer ≠ [] →
       ∃ t0 : Nat,
         (processor_run d (Batcher.new ms mw) evs).first_event_time =
             some t0 ∧
         (processor_run d (Batcher.new ms mw) evs).calculate_timeout now =
             (if now - t0 ≥ mw then 0 else mw - (now - t0)) ∧
         (processor_step d (processor_run d (Batcher.new ms mw) evs)
             (LoopEvent.timer now)).2 =
           some (write_events_json
             (processor_run d (Batcher.new ms mw) evs).buffer) ∧
         (processor_step d (processor_run d (Batcher.new ms mw) evs)
             (LoopEvent.timer now)).1 =
           (processor_run d (Batcher.new ms mw) evs).reset) := by
  have hinv := processor_run_inv d evs (Batcher.new ms mw)
    (batcher_inv_new ms mw)
  have hmw := processor_run_max_wait d evs (Batcher.new ms mw)
  set b := processor_run d (Batcher.new ms mw) evs with hb
  unfold batcher_inv at hinv
  constructor
  · intro hemp
    have hnone : b.first_event_time = none := by
      cases hf : b.first_event_time with
      | none => rfl
      | some t0 =>
        exact absurd hemp (hinv.mp (by rw [hf]; rfl))
    refine ⟨?_, ?_, ?_⟩
    · simp [Batcher.calculate_timeout, hnone]
    · simp [Batcher.has_events, hnone]
    · simp [processor_step, Batcher.has_events, hnone]
  · intro hne
    obtain ⟨t0, ht0⟩ : ∃ t0, b.first_event_time = some t0 := by
      cases hf : b.first_event_time with
      | some t0 => exact ⟨t0, rfl⟩
      | none => exact absurd (hinv.mpr hne) (by rw [hf]; simp)
    have hhe : b.has_events = true := by simp [Batcher.has_events, ht0]
    have hbe : b.buffer.isEmpty = false := by
      cases hbuf : b.buffer with
      | nil => exact absurd hbuf hne
      | cons a l => rfl
    refine ⟨t0, ht0, ?_, ?_, ?_⟩
    · simp [Batcher.calculate_timeout, ht0, hmw, Batcher.new]
    · simp [processor_step, hhe, flush_buffer, send_batch, hbe]
    · simp [processor_step, hhe, flush_buffer]

/-- Witness for C6 at the fresh (empty) batcher. -/
theorem claim_c6_witness :
    (processor_run (fun _ => true) (Batcher.new 2 5) []).calculate_timeout 0 =
        u64_max_secs_as_millis ∧
    (processor_run (fun _ => true) (Batcher.new 2 5) []).has_events = false ∧
    processor_step (fun _ => true)
        (processor_run (fun _ => true) (Batcher.new 2 5) [])
        (LoopEvent.timer 0) =
      (processor_run (fun _ => true) (Batcher.new 2 5) [], none) :=
  (claim_c6_wait_condition (fun _ => true) 2 5 [] 0).1 rfl

/-- C10: the first-event time is recorded exactly when the buffer is
non-empty: true of a fresh batcher, preserved by `handle_new_event`,
`reset`, and whole processor runs; hence the timer guard `has_events` is
enabled exactly when the batch holds at least one record. -/
theorem claim_c10_batcher_invariant (d : List (List Nat) → Bool)
    (ms mw now : Nat) (e : List Nat) :
    batcher_inv (Batcher.new ms mw) ∧
    (∀ b : Batcher, batcher_inv b → batcher_inv (b.handle_new_event now e)) ∧
    (∀ b : Batcher, batcher_inv b.reset) ∧
    (∀ (b : Batcher) (evs : List LoopEvent), batcher_inv b →
       batcher_inv (processor_run d b evs)) ∧
    (∀ b : Batcher, batcher_inv b → (b.has_events = true ↔ b.buffer ≠ [])) :=
  ⟨batcher_inv_new ms mw,
   fun b _ => batcher_inv_handle b now e,
   batcher_inv_reset,
   fun b evs h => processor_run_inv d evs b h,
   fun b h => h⟩

/-- Witness for C10 at a fresh batcher. -/
theorem claim_c10_witness :
    (Batcher.new 1 1).has_events = true ↔ (Batcher.new 1 1).buffer ≠ [] :=
  (claim_c10_batcher_invariant (fun _ => true) 1 1 0 []).2.2.2.2
    (Batcher.new 1 1) (by unfold batcher_inv; decide)
